import Mathlib

/-!
Shallow embedding of the procedural Famicom-style sound engine
(`SoundManager` and its waveform generators) of the repository, together
with theorems settling the spec claims about it.

Modelling conventions:
* Python floats are modelled as exact rationals (`ℚ`).
* `int(x)` (truncation toward zero) is `truncQ`.
* `.astype(np.int16)` is truncation plus 16-bit wrap (`i16` after `truncQ`);
  all values arising in the claims are in range, where the wrap is the identity.
* A generator returning `None` (either from the explicit `samples <= 0` guard
  or from the numpy broadcast error raised when the buffer is shorter than the
  fade ramp, which the blanket `except` turns into `return None`) is `none`.
* Sample buffers are lists of stereo pairs `ℤ × ℤ` (the code duplicates the
  mono signal to both channels with `np.repeat`).
* `np.random.uniform` draws and the transcendental functions `np.sin` / `np.exp`
  used by the drum synthesizer are abstracted as parameters (`SynthEnv`);
  no claim depends on their values.
* The audio backend is modelled as initialized at 22050 Hz; channel effects
  (`stop`, `play`, `set_volume`) are recorded as an event trace.
-/

namespace Undertale

/-- Mixer sample rate: `pygame.mixer.init(frequency=22050, ...)`. -/
def sampleRate : ℚ := 22050

/-- Python `int(q)`: truncation toward zero. -/
def truncQ (q : ℚ) : ℤ := if 0 ≤ q then ⌊q⌋ else ⌈q⌉

/-- Python `x % 1.0` (floor-based fractional part). -/
def frac (q : ℚ) : ℚ := q - ⌊q⌋

/-- Wrap an integer into the signed 16-bit range, as `.astype(np.int16)` does
after truncation. -/
def i16 (z : ℤ) : ℤ := (z + 32768) % 65536 - 32768

/-- Value at index `i` of the fade envelope of an `n`-sample buffer:
`envelope = np.ones(n)`, then `envelope[:fade] = np.linspace(0, 1, fade)` and
`envelope[-fade:] = np.linspace(1, 0, fade)`.  The tail assignment happens
second, so it wins where the two slices overlap. -/
def fadeEnv (n fade i : ℕ) : ℚ :=
  if fade = 0 then 1
  else if n - fade ≤ i then 1 - ((i - (n - fade) : ℕ) : ℚ) / ((fade : ℚ) - 1)
  else if i < fade then (i : ℚ) / ((fade : ℚ) - 1)
  else 1

/-- Model of `SoundManager._pulse_wave(freq, duration, duty, volume)`.
`none` when `samples <= 0`, or when `samples < fade` (the envelope slice
assignment raises and the `except` returns `None`). -/
def pulse_wave (freq dur duty vol : ℚ) : Option (List (ℤ × ℤ)) :=
  let samples := truncQ (dur * sampleRate)
  if samples ≤ 0 then none else
  let n := samples.toNat
  let fade := (truncQ (5 / 1000 * sampleRate)).toNat
  if 0 < fade ∧ n < fade then none else
  some ((List.range n).map (fun (i : ℕ) =>
    let t := (i : ℚ) * dur / (n : ℚ)
    let w : ℚ := if frac (t * freq) < duty then 1 else -1
    let v := i16 (truncQ (w * fadeEnv n fade i * vol * 32767))
    (v, v)))

/-- Model of `SoundManager._triangle_wave(freq, duration, volume)`. -/
def triangle_wave (freq dur vol : ℚ) : Option (List (ℤ × ℤ)) :=
  let samples := truncQ (dur * sampleRate)
  if samples ≤ 0 then none else
  let n := samples.toNat
  let fade := (truncQ (5 / 1000 * sampleRate)).toNat
  if 0 < fade ∧ n < fade then none else
  some ((List.range n).map (fun (i : ℕ) =>
    let t := (i : ℚ) * dur / (n : ℚ)
    let w : ℚ := 2 * |2 * frac (t * freq) - 1| - 1
    let v := i16 (truncQ (w * fadeEnv n fade i * vol * 32767))
    (v, v)))

/-- Model of `SoundManager._noise(duration, volume, mode)`; `rand i` is the i-th
`np.random.uniform(-1, 1)` draw, `periodic = true` is `mode='periodic'`
(which attenuates every other sample by `0.7`). -/
def noise (rand : ℕ → ℚ) (dur vol : ℚ) (periodic : Bool) : Option (List (ℤ × ℤ)) :=
  let samples := truncQ (dur * sampleRate)
  if samples ≤ 0 then none else
  let n := samples.toNat
  let fade := (truncQ (3 / 1000 * sampleRate)).toNat
  if 0 < fade ∧ n < fade then none else
  some ((List.range n).map (fun (i : ℕ) =>
    let w : ℚ := if periodic = true ∧ i % 2 = 0 then rand i * (7 / 10) else rand i
    let v := i16 (truncQ (w * fadeEnv n fade i * vol * 32767))
    (v, v)))

/-- Nondeterministic and transcendental primitives used by the drum
synthesizer, abstracted as inputs: `rand` are the `np.random.uniform(-1, 1)`
draws of `_noise`, `randKick` the `uniform(-0.3, 0.3)` slap of the kick,
`randSnare` the `uniform(-1, 1)` draws of the snare, `sin2pi x` is
`np.sin(2 * np.pi * x)` and `exp` is `np.exp`.  No claim depends on their
values. -/
structure SynthEnv where
  rand : ℕ → ℚ
  randKick : ℕ → ℚ
  randSnare : ℕ → ℚ
  sin2pi : ℚ → ℚ
  exp : ℚ → ℚ

/-- The `type` argument of `SoundManager._drum`. -/
inductive DrumKind
  | kick
  | snare
  | hat
deriving DecidableEq

/-- Model of `SoundManager._drum(duration, type, volume)`. -/
def drum (E : SynthEnv) (dur : ℚ) (kind : DrumKind) (vol : ℚ) : Option (List (ℤ × ℤ)) :=
  match kind with
  | .kick =>
    let samples := truncQ (dur * sampleRate)
    if samples ≤ 0 then none else
    let n := samples.toNat
    some ((List.range n).map (fun (i : ℕ) =>
      let t := (i : ℚ) * dur / (n : ℚ)
      let pitch := 120 * E.exp (-t * 20)
      let kick_tone := E.sin2pi (pitch * t) * E.exp (-t * 20)
      let slap := E.randKick i * E.exp (-t * 30)
      let v := i16 (truncQ ((kick_tone + slap) * vol * 32767))
      (v, v)))
  | .snare =>
    let samples := truncQ (dur * sampleRate)
    if samples ≤ 0 then none else
    let n := samples.toNat
    some ((List.range n).map (fun (i : ℕ) =>
      let t := (i : ℚ) * dur / (n : ℚ)
      let noisePart := E.randSnare i * E.exp (-t * 20)
      let tonePart := E.sin2pi (180 * t) * E.exp (-t * 15)
      let v := i16 (truncQ ((6 / 10 * noisePart + 4 / 10 * tonePart) * vol * 32767))
      (v, v)))
  | .hat => noise E.rand dur (vol * (7 / 10)) false

/-- Model of `pygame.sndarray.array(snd)[:, 0]` together with the composer's
`arr.size == 0` guard: extract the mono (left) channel of a generated sound. -/
def monoOf (o : Option (List (ℤ × ℤ))) : Option (List ℤ) :=
  match o with
  | none => none
  | some a => if a.length = 0 then none else some (a.map Prod.fst)

/-- One beat of a pitched channel in `_generate_famicom_loop`: a rest
(`np.zeros(samples_per_beat)`) for frequency 0, otherwise the generated tone. -/
def beatTone (spb : ℕ) (g : ℚ → Option (List (ℤ × ℤ))) (f : ℚ) : Option (List ℤ) :=
  if f = 0 then some (List.replicate spb 0) else monoOf (g f)

/-- Concatenation of per-beat buffers with failure propagation (the composer
returns `None` as soon as any underlying generator call fails). -/
def seqConcat {α : Type} (f : α → Option (List ℤ)) : List α → Option (List ℤ)
  | [] => some []
  | a :: rest =>
    match f a, seqConcat f rest with
    | some x, some y => some (x ++ y)
    | _, _ => none

/-- Beat `i` of the 16-beat drum pattern of `_generate_famicom_loop`:
kick on `i % 4 == 0`, snare on `i % 8 == 6`, hi-hat on remaining odd beats,
silence elsewhere. -/
def drumBeat (E : SynthEnv) (beat : ℚ) (spb : ℕ) (i : ℕ) : Option (List ℤ) :=
  if i % 4 = 0 then monoOf (drum E beat .kick (6 / 10))
  else if i % 8 = 6 then monoOf (drum E beat .snare (5 / 10))
  else if i % 2 = 1 then monoOf (drum E beat .hat (3 / 10))
  else some (List.replicate spb 0)

/-- Model of `np.tile(l, k)`. -/
def tileN (l : List ℤ) (k : ℕ) : List ℤ := (List.replicate k l).flatten

/-- Model of the nested `to_stereo` of `_generate_famicom_loop`: its `mono.size == 0` guard, then
duplication of the mono signal to both stereo channels. -/
def to_stereo (mono : List ℤ) : Option (List (ℤ × ℤ)) :=
  if mono.length = 0 then none else some (mono.map (fun v => (v, v)))

/-- The six music themes (level names). -/
inductive Theme
  | ruins
  | snowdin
  | waterfall
  | hotland
  | core
  | last
deriving DecidableEq

/-- The hand-authored per-theme musical parameters of
`_generate_famicom_loop`: bass frequencies, melody notes, tempo (BPM) and
pulse duty, exactly as in the source (the source's `else` branch is `last`). -/
def themeParams : Theme → List ℚ × List ℚ × ℚ × ℚ
  | .ruins => ([110, 110, 98, 98], [220, 262, 294, 330, 0, 330, 294, 262], 120, 5 / 10)
  | .snowdin => ([98, 98, 110, 110], [330, 294, 262, 220, 0, 220, 262, 294], 140, 25 / 100)
  | .waterfall => ([65, 65, 73, 73], [196, 220, 262, 294, 0, 262, 220, 196], 100, 5 / 10)
  | .hotland => ([82, 82, 92, 92], [330, 311, 294, 262, 0, 294, 311, 330], 160, 125 / 1000)
  | .core => ([110, 98, 110, 98], [349, 330, 311, 294, 0, 294, 311, 330], 180, 75 / 100)
  | .last => ([65, 73, 65, 73], [220, 262, 330, 392, 0, 392, 330, 262], 200, 5 / 10)

/-- A generated loop set: stereo bass, melody and drum buffers. -/
abbrev LoopSet := List (ℤ × ℤ) × List (ℤ × ℤ) × List (ℤ × ℤ)

/-- Model of `SoundManager._generate_famicom_loop(level_name, duration)` under an
available mixer (the controller only reaches it in that case). -/
def genLoop (E : SynthEnv) (name : Theme) (dur : ℚ) : Option LoopSet :=
  let ps := themeParams name
  let beat : ℚ := 60 / ps.2.2.1
  let spbZ := truncQ (beat * sampleRate)
  if spbZ ≤ 0 then none else
  let spb := spbZ.toNat
  (seqConcat (beatTone spb (fun f => triangle_wave f beat (5 / 10))) ps.1).bind (fun bass0 =>
  (seqConcat (beatTone spb (fun f => pulse_wave f beat ps.2.2.2 (4 / 10))) ps.2.1).bind (fun mel0 =>
  (seqConcat (drumBeat E beat spb) (List.range 16)).bind (fun dr0 =>
  let r1 := (truncQ (dur / ((ps.1.length : ℚ) * beat))).toNat
  let bassT := if 0 < r1 then tileN bass0 r1 else bass0
  let r2 := (truncQ (dur / ((ps.2.1.length : ℚ) * beat))).toNat
  let melT := if 0 < r2 then tileN mel0 r2 else mel0
  let r3 := (truncQ (dur / (16 * beat))).toNat
  let drT := if 0 < r3 then tileN dr0 r3 else dr0
  let targetZ := truncQ (dur * sampleRate)
  if targetZ ≤ 0 then none else
  let target := targetZ.toNat
  (to_stereo (bassT.take target)).bind (fun b =>
  (to_stereo (melT.take target)).bind (fun m =>
  (to_stereo (drT.take target)).bind (fun d =>
  some (b, m, d)))))))

/-- Observable audio channel operations issued by the controller. -/
inductive Event
  | stop (ch : ℕ)
  | play (ch : ℕ) (buf : List (ℤ × ℤ))
  | setVolume (ch : ℕ) (v : ℚ)
deriving DecidableEq

/-- The mutable state of `SoundManager` (the three channel objects are
modelled by the event trace; `proc_sounds` is the loop cache as an
association list, new entries prepended). -/
structure SM where
  mixer_available : Bool
  current_level : Option Theme
  route : String
  target_volume : ℚ
  current_volume : ℚ
  speed : ℚ
  enemy_near : Bool
  proc_sounds : List (Theme × LoopSet)
  proc_target_volumes : ℚ × ℚ × ℚ
  proc_current_volumes : ℚ × ℚ × ℚ
deriving DecidableEq

/-- Model of `SoundManager.__init__` with a successfully initialized mixer. -/
def initSM : SM :=
  { mixer_available := true
    current_level := none
    route := "pacifist"
    target_volume := 5 / 10
    current_volume := 5 / 10
    speed := 0
    enemy_near := false
    proc_sounds := []
    proc_target_volumes := (5 / 10, 5 / 10, 5 / 10)
    proc_current_volumes := (0, 0, 0) }

/-- Model of `SoundManager.load_level(level_name)`.  `gen` is the loop generator
(`_generate_famicom_loop` at `duration=4.0`, abstracted so that
environment-caused generation failures are representable).  Returns the new
state and the trace of channel operations. -/
def load_level (gen : Theme → Option LoopSet) (s : SM) (name : Theme) : SM × List Event :=
  if s.mixer_available = false then (s, [])
  else if s.current_level = some name then (s, [])
  else
    let s1 := { s with current_level := some name }
    let stops : List Event := [.stop 0, .stop 1, .stop 2]
    match List.lookup name s1.proc_sounds with
    | some loops =>
      ({ s1 with proc_target_volumes := (5 / 10, 5 / 10, 5 / 10),
                 proc_current_volumes := (0, 0, 0) },
       stops ++ [.play 0 loops.1, .play 1 loops.2.1, .play 2 loops.2.2])
    | none =>
      match gen name with
      | none => ({ s1 with mixer_available := false }, stops)
      | some loops =>
        ({ s1 with proc_sounds := (name, loops) :: s1.proc_sounds,
                   proc_target_volumes := (5 / 10, 5 / 10, 5 / 10),
                   proc_current_volumes := (0, 0, 0) },
         stops ++ [.play 0 loops.1, .play 1 loops.2.1, .play 2 loops.2.2])

/-- Model of `SoundManager.set_route(route)`. -/
def set_route (gen : Theme → Option LoopSet) (s : SM) (r : String) : SM × List Event :=
  if r = s.route then (s, [])
  else
    let s1 := { s with route := r }
    if s1.current_level = some Theme.last then load_level gen s1 Theme.last
    else (s1, [])

/-- The per-frame volume smoothing step of `SoundManager.update`:
`current += (target - current) * 0.1`. -/
def smoothStep (target c : ℚ) : ℚ := c + (target - c) * (1 / 10)

/-- Model of `SoundManager.update(player_speed, enemy_near)`. -/
def update (s : SM) (player_speed : ℚ) (enemy_near : Bool) : SM × List Event :=
  if s.mixer_available = false then (s, [])
  else
    let base := 3 / 10 + 4 / 10 * min 1 (player_speed / 5)
    let tv := if enemy_near then base * (5 / 10) else base
    let c0 := smoothStep tv s.proc_current_volumes.1
    let c1 := smoothStep tv s.proc_current_volumes.2.1
    let c2 := smoothStep tv s.proc_current_volumes.2.2
    ({ s with speed := player_speed, enemy_near := enemy_near, target_volume := tv,
              proc_current_volumes := (c0, c1, c2) },
     [.setVolume 0 c0, .setVolume 1 c1, .setVolume 2 c2])

/-- Specification predicate for a pulse-wave buffer, following the spec's
words (with the length amended from `round` to Python's `int` truncation):
exactly `int(duration * sample_rate)` stereo pairs, equal left/right samples,
every sample in the signed 16-bit range, and each mono sample the
int16-truncated, volume-and-envelope-scaled `+1` where the fractional part of
`t * frequency` is below `duty` and `-1` otherwise. -/
def PulseBufferSpec (freq dur duty vol : ℚ) (l : List (ℤ × ℤ)) : Prop :=
  l.length = (truncQ (dur * sampleRate)).toNat
  ∧ ∀ i (hi : i < l.length),
      (l.get ⟨i, hi⟩).2 = (l.get ⟨i, hi⟩).1
      ∧ -32768 ≤ (l.get ⟨i, hi⟩).1 ∧ (l.get ⟨i, hi⟩).1 ≤ 32767
      ∧ (l.get ⟨i, hi⟩).1 =
          truncQ ((if frac ((i : ℚ) * dur / (((truncQ (dur * sampleRate)).toNat : ℕ) : ℚ) * freq) < duty
                    then (1 : ℚ) else -1)
            * fadeEnv (truncQ (dur * sampleRate)).toNat 110 i * vol * 32767)

/-- A loop generator that always fails (e.g. the audio backend rejects every
buffer), used to instantiate theorems at concrete inputs. -/
def genFail : Theme → Option LoopSet := fun _ => none

/-- A state whose selected theme is the terminal theme. -/
def sLast : SM := { initSM with current_level := some Theme.last }

/-- A state in which the engine has been disabled. -/
def sDead : SM := { initSM with mixer_available := false }

/-- A tiny stand-in loop set, used to pre-populate the cache in witnesses. -/
def tinyLoop : LoopSet := ([(0, 0)], [(0, 0)], [(0, 0)])

/-- A state whose cache already holds a loop set for `ruins` and whose
current volumes are nonzero. -/
def sCached : SM :=
  { initSM with proc_sounds := [(Theme.ruins, tinyLoop)],
                proc_current_volumes := (1 / 4, 1 / 4, 1 / 4) }

/-! ## Helper lemmas -/

/-- The tone-generator fade length: `int(0.005 * 22050) = 110`. -/
theorem fade_tone : (truncQ (5 / 1000 * sampleRate)).toNat = 110 := by
  norm_num [truncQ, sampleRate]
  rfl

/-- The noise-generator fade length: `int(0.003 * 22050) = 66`. -/
theorem fade_noise : (truncQ (3 / 1000 * sampleRate)).toNat = 66 := by
  norm_num [truncQ, sampleRate]
  rfl

theorem pulse_some (freq dur duty vol : ℚ)
    (h : 110 ≤ (truncQ (dur * sampleRate)).toNat) :
    ∃ l, pulse_wave freq dur duty vol = some l
      ∧ l.length = (truncQ (dur * sampleRate)).toNat := by
  simp only [pulse_wave, fade_tone]
  rw [if_neg (by omega), if_neg (by omega)]
  exact ⟨_, rfl, by simp⟩

theorem triangle_some (freq dur vol : ℚ)
    (h : 110 ≤ (truncQ (dur * sampleRate)).toNat) :
    ∃ l, triangle_wave freq dur vol = some l
      ∧ l.length = (truncQ (dur * sampleRate)).toNat := by
  simp only [triangle_wave, fade_tone]
  rw [if_neg (by omega), if_neg (by omega)]
  exact ⟨_, rfl, by simp⟩

theorem noise_some (rand : ℕ → ℚ) (dur vol : ℚ) (periodic : Bool)
    (h : 66 ≤ (truncQ (dur * sampleRate)).toNat) :
    ∃ l, noise rand dur vol periodic = some l
      ∧ l.length = (truncQ (dur * sampleRate)).toNat := by
  simp only [noise, fade_noise]
  rw [if_neg (by omega), if_neg (by omega)]
  exact ⟨_, rfl, by simp⟩

theorem drum_kick_some (E : SynthEnv) (dur vol : ℚ)
    (h : 0 < (truncQ (dur * sampleRate)).toNat) :
    ∃ l, drum E dur .kick vol = some l
      ∧ l.length = (truncQ (dur * sampleRate)).toNat := by
  simp only [drum]
  rw [if_neg (by omega)]
  exact ⟨_, rfl, by simp⟩

theorem drum_snare_some (E : SynthEnv) (dur vol : ℚ)
    (h : 0 < (truncQ (dur * sampleRate)).toNat) :
    ∃ l, drum E dur .snare vol = some l
      ∧ l.length = (truncQ (dur * sampleRate)).toNat := by
  simp only [drum]
  rw [if_neg (by omega)]
  exact ⟨_, rfl, by simp⟩

theorem drum_hat_some (E : SynthEnv) (dur vol : ℚ)
    (h : 66 ≤ (truncQ (dur * sampleRate)).toNat) :
    ∃ l, drum E dur .hat vol = some l
      ∧ l.length = (truncQ (dur * sampleRate)).toNat := by
  simp only [drum]
  exact noise_some E.rand dur (vol * (7 / 10)) false h

theorem monoOf_some {o : Option (List (ℤ × ℤ))} {a : List (ℤ × ℤ)} {spb : ℕ}
    (ho : o = some a) (hl : a.length = spb) (hs : 0 < spb) :
    monoOf o = some (a.map Prod.fst) ∧ (a.map Prod.fst).length = spb := by
  subst ho
  refine ⟨?_, by simp [hl]⟩
  simp only [monoOf]
  rw [if_neg (by omega)]

theorem beatTone_some {spb : ℕ} {g : ℚ → Option (List (ℤ × ℤ))}
    (hg : ∀ f, f ≠ 0 → ∃ l, g f = some l ∧ l.length = spb)
    (hs : 0 < spb) (f : ℚ) :
    ∃ x, beatTone spb g f = some x ∧ x.length = spb := by
  unfold beatTone
  by_cases hf : f = 0
  · rw [if_pos hf]
    exact ⟨_, rfl, by simp⟩
  · rw [if_neg hf]
    obtain ⟨l, hl, hll⟩ := hg f hf
    obtain ⟨h1, h2⟩ := monoOf_some hl hll hs
    exact ⟨_, h1, h2⟩

theorem seqConcat_length {α : Type} (spb : ℕ) (f : α → Option (List ℤ)) (l : List α)
    (h : ∀ a ∈ l, ∃ x, f a = some x ∧ x.length = spb) :
    ∃ p, seqConcat f l = some p ∧ p.length = l.length * spb := by
  induction l with
  | nil => exact ⟨[], rfl, by simp⟩
  | cons a rest ih =>
    obtain ⟨x, hx, hxl⟩ := h a (by simp)
    obtain ⟨p, hp, hpl⟩ := ih (fun b hb => h b (by simp [hb]))
    refine ⟨x ++ p, ?_, ?_⟩
    · simp only [seqConcat]
      rw [hx, hp]
    · simp [hxl, hpl, Nat.succ_mul, Nat.add_comm]

theorem tileN_length (l : List ℤ) (k : ℕ) : (tileN l k).length = k * l.length := by
  induction k with
  | zero => simp [tileN]
  | succ m ih =>
    simp only [tileN, List.replicate_succ, List.flatten_cons, List.length_append] at ih ⊢
    rw [ih]
    ring

theorem to_stereo_some (mono : List ℤ) (h : 0 < mono.length) :
    ∃ t, to_stereo mono = some t ∧ t.length = mono.length := by
  simp only [to_stereo]
  rw [if_neg (by omega)]
  exact ⟨_, rfl, by simp⟩

theorem drumBeat_some (E : SynthEnv) (tempo : ℚ) (spb : ℕ)
    (hspb : spb = (truncQ (60 / tempo * sampleRate)).toNat) (h110 : 110 ≤ spb) (i : ℕ) :
    ∃ x, drumBeat E (60 / tempo) spb i = some x ∧ x.length = spb := by
  subst hspb
  unfold drumBeat
  split_ifs with h1 h2 h3
  · obtain ⟨l, hl, hll⟩ := drum_kick_some E (60 / tempo) (6 / 10) (by omega)
    obtain ⟨ha, hb⟩ := monoOf_some hl hll (by omega)
    exact ⟨_, ha, hb⟩
  · obtain ⟨l, hl, hll⟩ := drum_snare_some E (60 / tempo) (5 / 10) (by omega)
    obtain ⟨ha, hb⟩ := monoOf_some hl hll (by omega)
    exact ⟨_, ha, hb⟩
  · obtain ⟨l, hl, hll⟩ := drum_hat_some E (60 / tempo) (3 / 10) (by omega)
    obtain ⟨ha, hb⟩ := monoOf_some hl hll (by omega)
    exact ⟨_, ha, hb⟩
  · exact ⟨_, rfl, by simp⟩

theorem tiled_take_length (p : List ℤ) (r target c : ℕ)
    (hp : p.length = c) :
    ((if 0 < r then tileN p r else p).take target).length = min (max 1 r * c) target := by
  have hlen : (if 0 < r then tileN p r else p).length = max 1 r * c := by
    by_cases hr : 0 < r
    · rw [if_pos hr, tileN_length, hp]
      congr 1
      omega
    · rw [if_neg hr, hp]
      have : r = 0 := by omega
      subst this
      simp
  rw [List.length_take, hlen, Nat.min_comm]

/-- Master lemma for `_generate_famicom_loop`: under the side conditions that
hold for every theme at `duration = 4`, generation succeeds and the three
buffer lengths are the tiled cycle lengths clipped to the target count. -/
theorem genLoop_lengths (E : SynthEnv) (name : Theme) (dur : ℚ)
    (bf mel : List ℚ) (tempo duty : ℚ)
    (hps : themeParams name = (bf, mel, tempo, duty))
    (spb : ℕ) (hspb : spb = (truncQ (60 / tempo * sampleRate)).toNat)
    (h110 : 110 ≤ spb)
    (target : ℕ) (htarget : target = (truncQ (dur * sampleRate)).toNat)
    (htpos : 0 < target)
    (hbf : bf ≠ []) (hmel : mel ≠ []) :
    ∃ b m d, genLoop E name dur = some (b, m, d)
      ∧ b.length = min (max 1 ((truncQ (dur / ((bf.length : ℚ) * (60 / tempo)))).toNat)
          * (bf.length * spb)) target
      ∧ m.length = min (max 1 ((truncQ (dur / ((mel.length : ℚ) * (60 / tempo)))).toNat)
          * (mel.length * spb)) target
      ∧ d.length = min (max 1 ((truncQ (dur / (16 * (60 / tempo)))).toNat)
          * (16 * spb)) target := by
  have hbfpos : 0 < bf.length := List.length_pos.mpr hbf
  have hmelpos : 0 < mel.length := List.length_pos.mpr hmel
  obtain ⟨bassP, hbP, hbPl⟩ :=
    seqConcat_length spb (beatTone spb (fun f => triangle_wave f (60 / tempo) (5 / 10))) bf
      (fun f _ => beatTone_some
        (fun f _ => by
          rw [hspb]
          exact triangle_some f (60 / tempo) (5 / 10) (by omega))
        (by omega) f)
  obtain ⟨melP, hmP, hmPl⟩ :=
    seqConcat_length spb (beatTone spb (fun f => pulse_wave f (60 / tempo) duty (4 / 10))) mel
      (fun f _ => beatTone_some
        (fun f _ => by
          rw [hspb]
          exact pulse_some f (60 / tempo) duty (4 / 10) (by omega))
        (by omega) f)
  obtain ⟨drP, hdP, hdPl⟩ :=
    seqConcat_length spb (drumBeat E (60 / tempo) spb) (List.range 16)
      (fun i _ => drumBeat_some E tempo spb hspb h110 i)
  simp only [genLoop, hps]
  rw [if_neg (by omega)]
  rw [← hspb, hbP]
  simp only [Option.some_bind]
  rw [hmP]
  simp only [Option.some_bind]
  rw [hdP]
  simp only [Option.some_bind]
  rw [if_neg (by omega), ← htarget]
  have hb1 := tiled_take_length bassP ((truncQ (dur / ((bf.length : ℚ) * (60 / tempo)))).toNat)
    target (bf.length * spb) hbPl
  have hm1 := tiled_take_length melP ((truncQ (dur / ((mel.length : ℚ) * (60 / tempo)))).toNat)
    target (mel.length * spb) hmPl
  have hd1 := tiled_take_length drP ((truncQ (dur / (16 * (60 / tempo)))).toNat)
    target (16 * spb) (by rw [hdPl, List.length_range])
  obtain ⟨b, hb, hbl⟩ := to_stereo_some
    ((if 0 < (truncQ (dur / ((bf.length : ℚ) * (60 / tempo)))).toNat
      then tileN bassP ((truncQ (dur / ((bf.length : ℚ) * (60 / tempo)))).toNat) else bassP).take target)
    (by
      rw [hb1]
      exact lt_min (Nat.mul_pos (lt_of_lt_of_le one_pos (le_max_left 1 _))
        (Nat.mul_pos hbfpos (by omega))) htpos)
  obtain ⟨m, hm, hml⟩ := to_stereo_some
    ((if 0 < (truncQ (dur / ((mel.length : ℚ) * (60 / tempo)))).toNat
      then tileN melP ((truncQ (dur / ((mel.length : ℚ) * (60 / tempo)))).toNat) else melP).take target)
    (by
      rw [hm1]
      exact lt_min (Nat.mul_pos (lt_of_lt_of_le one_pos (le_max_left 1 _))
        (Nat.mul_pos hmelpos (by omega))) htpos)
  obtain ⟨d, hd, hdl⟩ := to_stereo_some
    ((if 0 < (truncQ (dur / (16 * (60 / tempo)))).toNat
      then tileN drP ((truncQ (dur / (16 * (60 / tempo)))).toNat) else drP).take target)
    (by
      rw [hd1]
      exact lt_min (Nat.mul_pos (lt_of_lt_of_le one_pos (le_max_left 1 _))
        (Nat.mul_pos (by norm_num) (by omega))) htpos)
  rw [hb, hm, hd]
  simp only [Option.some_bind]
  refine ⟨b, m, d, rfl, ?_, ?_, ?_⟩
  · rw [hbl, hb1]
  · rw [hml, hm1]
  · rw [hdl, hd1]

theorem fadeEnv_nonneg_le_one (n i : ℕ) (hi : i < n) :
    0 ≤ fadeEnv n 110 i ∧ fadeEnv n 110 i ≤ 1 := by
  unfold fadeEnv
  rw [if_neg (by norm_num : ¬(110 : ℕ) = 0)]
  split_ifs with h1 h2
  · have hj : (i - (n - 110)) ≤ 109 := by omega
    have hjq : ((i - (n - 110) : ℕ) : ℚ) ≤ 109 := by exact_mod_cast hj
    have hnn : (0 : ℚ) ≤ ((i - (n - 110) : ℕ) : ℚ) := by positivity
    have hq : ((110 : ℕ) : ℚ) - 1 = 109 := by norm_num
    rw [hq]
    constructor
    · have hd : ((i - (n - 110) : ℕ) : ℚ) / 109 ≤ 1 := by
        rw [div_le_one (by norm_num)]
        linarith
      linarith
    · have hd : 0 ≤ ((i - (n - 110) : ℕ) : ℚ) / 109 := by positivity
      linarith
  · have hj : i ≤ 109 := by omega
    have hjq : ((i : ℕ) : ℚ) ≤ 109 := by exact_mod_cast hj
    have hq : ((110 : ℕ) : ℚ) - 1 = 109 := by norm_num
    rw [hq]
    constructor
    · positivity
    · rw [div_le_one (by norm_num)]
      linarith
  · norm_num

theorem truncQ_bounds (q : ℚ) (h : |q| ≤ 32767) :
    -32767 ≤ truncQ q ∧ truncQ q ≤ 32767 := by
  obtain ⟨hlo, hhi⟩ := abs_le.mp h
  unfold truncQ
  split_ifs with h0
  · have hnn := Int.floor_nonneg.mpr h0
    have h1 : ⌊q⌋ ≤ ⌊(32767 : ℚ)⌋ := Int.floor_le_floor hhi
    have h2 : ⌊(32767 : ℚ)⌋ = 32767 := by norm_num
    omega
  · have h1 : ⌈(-32767 : ℚ)⌉ ≤ ⌈q⌉ := Int.ceil_le_ceil hlo
    have h2 : ⌈(-32767 : ℚ)⌉ = -32767 := by
      rw [show (-32767 : ℚ) = ((-32767 : ℤ) : ℚ) by norm_num]
      exact Int.ceil_intCast _
    have h3 : ⌈q⌉ ≤ 0 := Int.ceil_le.mpr (by exact_mod_cast (not_le.mp h0).le)
    omega

theorem i16_eq_self (z : ℤ) (h1 : -32768 ≤ z) (h2 : z ≤ 32767) : i16 z = z := by
  unfold i16
  omega

theorem sample_value_bounds (w env vol : ℚ) (hw : w = 1 ∨ w = -1)
    (he0 : 0 ≤ env) (he1 : env ≤ 1) (hv0 : 0 ≤ vol) (hv1 : vol ≤ 1) :
    -32767 ≤ truncQ (w * env * vol * 32767) ∧ truncQ (w * env * vol * 32767) ≤ 32767
    ∧ i16 (truncQ (w * env * vol * 32767)) = truncQ (w * env * vol * 32767) := by
  have habs : |w * env * vol * 32767| ≤ 32767 := by
    rcases hw with h | h <;> subst h
    · rw [abs_of_nonneg (by positivity)]
      nlinarith
    · rw [show (-1 : ℚ) * env * vol * 32767 = -(env * vol * 32767) by ring, abs_neg,
        abs_of_nonneg (by positivity)]
      nlinarith
  obtain ⟨hb1, hb2⟩ := truncQ_bounds _ habs
  exact ⟨hb1, hb2, i16_eq_self _ (by omega) hb2⟩

/-! ## Claim theorems -/

/-- Claim C1: the claim states that a successfully generated LoopSet has
bass, melody and percussion buffers of identical sample length
`round(4.0 * sample_rate) = 88200` for every theme.  The code violates this:
for the `snowdin` theme (tempo 140) the tiling repeat count
`int(duration / (cycle_beats * beat_duration))` truncates down, so the bass
and melody buffers are generated with only 75600 samples while the percussion
buffer is trimmed to 88200 — the spec itself calls such mismatches a defect,
so this is recorded as a code bug.  This theorem evaluates the embedded
generator at the failing input. -/
theorem genLoop_snowdin_mismatch (E : SynthEnv) :
    ∃ b m d, genLoop E Theme.snowdin 4 = some (b, m, d)
      ∧ b.length = 75600 ∧ m.length = 75600 ∧ d.length = 88200
      ∧ (truncQ ((4 : ℚ) * sampleRate)).toNat = 88200
      ∧ b.length ≠ d.length := by
  obtain ⟨b, m, d, hg, hb, hm, hd⟩ :=
    genLoop_lengths E .snowdin 4 [98, 98, 110, 110] [330, 294, 262, 220, 0, 220, 262, 294]
      140 (25 / 100) rfl 9450 (by norm_num [truncQ, sampleRate]; rfl)
      (by norm_num) 88200 (by norm_num [truncQ, sampleRate]; rfl) (by norm_num)
      (by simp) (by simp)
  refine ⟨b, m, d, hg, ?_, ?_, ?_, by norm_num [truncQ, sampleRate]; rfl, ?_⟩
  · rw [hb]
    norm_num [truncQ, sampleRate]
    omega
  · rw [hm]
    norm_num [truncQ, sampleRate]
  · rw [hd]
    norm_num [truncQ, sampleRate]
  · rw [hb, hd]
    norm_num [truncQ, sampleRate]
    omega

/-- Claim C3 (amended): for frequency > 0, duration > 0, duty in (0,1] and
volume in [0,1] with the mixer at 22050 Hz, whenever the truncated sample
count `int(duration * sample_rate)` is at least the 110-sample fade length,
the pulse generator returns a buffer of exactly `int(duration * sample_rate)`
stereo pairs (truncation, not `round` as the claim stated), each within the
signed 16-bit range, and each mono sample is the int16-truncated
volume-and-envelope-scaled `+1` where `frac(t * freq) < duty` and `-1`
otherwise. -/
theorem pulse_wave_correct (freq dur duty vol : ℚ)
    (_hfreq : 0 < freq) (_hdur : 0 < dur) (_hduty0 : 0 < duty) (_hduty1 : duty ≤ 1)
    (hvol0 : 0 ≤ vol) (hvol1 : vol ≤ 1)
    (hn : 110 ≤ (truncQ (dur * sampleRate)).toNat) :
    ∃ l, pulse_wave freq dur duty vol = some l ∧ PulseBufferSpec freq dur duty vol l := by
  simp only [pulse_wave, fade_tone]
  rw [if_neg (by omega), if_neg (by omega)]
  refine ⟨_, rfl, ?_⟩
  unfold PulseBufferSpec
  constructor
  · simp
  · intro i hi
    have hi' : i < (truncQ (dur * sampleRate)).toNat := by simpa using hi
    simp only [List.get_eq_getElem, List.getElem_map, List.getElem_range]
    have henv := fadeEnv_nonneg_le_one ((truncQ (dur * sampleRate)).toNat) i hi'
    have hv := sample_value_bounds
      (if frac ((i : ℚ) * dur / (((truncQ (dur * sampleRate)).toNat : ℕ) : ℚ) * freq) < duty
        then (1 : ℚ) else -1)
      (fadeEnv ((truncQ (dur * sampleRate)).toNat) 110 i) vol
      (by split_ifs <;> simp) henv.1 henv.2 hvol0 hvol1
    have h1 := hv.1
    have h2 := hv.2.1
    have h3 := hv.2.2
    refine ⟨by trivial, ?_, ?_, ?_⟩
    · rw [h3]
      omega
    · rw [h3]
      exact h2
    · exact h3

/-- Counterexample for C3 as stated: at duration `1107/220500` seconds
(so `duration * 22050 = 110.7`) the pulse generator returns a buffer of
`int(110.7) = 110` stereo pairs, while the claim's `round(110.7) = 111`. -/
theorem pulse_wave_round_cex :
    Option.map List.length (pulse_wave 440 (1107 / 220500) (5 / 10) 1) = some 110
    ∧ round ((1107 / 220500 : ℚ) * sampleRate) = 111 := by
  have h : (truncQ ((1107 / 220500 : ℚ) * sampleRate)).toNat = 110 := by
    norm_num [truncQ, sampleRate]
    rfl
  constructor
  · obtain ⟨l, hl, hll⟩ := pulse_some 440 (1107 / 220500) (5 / 10) 1 (by omega)
    rw [hl]
    simp [hll, h]
  · norm_num [sampleRate, round_eq]

/-- Witness for C3 at a concrete input: frequency 1 Hz, duration
`110/22050` seconds (exactly the fade length), duty 0.5, volume 1. -/
theorem pulse_wave_correct_witness :
    ∃ l, pulse_wave 1 (110 / 22050) (5 / 10) 1 = some l
      ∧ PulseBufferSpec 1 (110 / 22050) (5 / 10) 1 l :=
  pulse_wave_correct 1 (110 / 22050) (5 / 10) 1 (by norm_num) (by norm_num) (by norm_num)
    (by norm_num) (by norm_num) (by norm_num)
    (by
      have h : truncQ ((110 / 22050 : ℚ) * sampleRate) = 110 := by
        norm_num [truncQ, sampleRate]
      omega)

/-- Claim C6 (amended): with the backend initialized at 22050 Hz, each
generator fails (returns no buffer) exactly when the truncated sample count
is below its fade length — 110 samples for pulse and triangle, 66 for noise —
which subsumes the claim's `samples <= 0` case; for counts at or above the
fade length it returns a buffer. -/
theorem generator_failure_characterization (rand : ℕ → ℚ) (freq dur duty vol : ℚ)
    (periodic : Bool) :
    ((pulse_wave freq dur duty vol).isSome = true
        ↔ 110 ≤ (truncQ (dur * sampleRate)).toNat)
    ∧ ((triangle_wave freq dur vol).isSome = true
        ↔ 110 ≤ (truncQ (dur * sampleRate)).toNat)
    ∧ ((noise rand dur vol periodic).isSome = true
        ↔ 66 ≤ (truncQ (dur * sampleRate)).toNat) := by
  refine ⟨?_, ?_, ?_⟩
  · simp only [pulse_wave, fade_tone]
    split_ifs with h1 h2
    · simp only [Option.isSome_none, Bool.false_eq_true, false_iff]
      omega
    · simp only [Option.isSome_none, Bool.false_eq_true, false_iff]
      omega
    · simp only [Option.isSome_some, true_iff]
      omega
  · simp only [triangle_wave, fade_tone]
    split_ifs with h1 h2
    · simp only [Option.isSome_none, Bool.false_eq_true, false_iff]
      omega
    · simp only [Option.isSome_none, Bool.false_eq_true, false_iff]
      omega
    · simp only [Option.isSome_some, true_iff]
      omega
  · simp only [noise, fade_noise]
    split_ifs with h1 h2
    · simp only [Option.isSome_none, Bool.false_eq_true, false_iff]
      omega
    · simp only [Option.isSome_none, Bool.false_eq_true, false_iff]
      omega
    · simp only [Option.isSome_some, true_iff]
      omega

/-- Counterexample for C6 as stated: a duration of `50/22050` seconds gives a
strictly positive target sample count (50) with an initialized backend, yet
the pulse generator returns no buffer (the envelope slice assignment raises
for buffers shorter than the 110-sample fade). -/
theorem pulse_wave_small_cex :
    pulse_wave 440 (50 / 22050) (5 / 10) 1 = none
    ∧ 0 < (truncQ ((50 / 22050 : ℚ) * sampleRate)).toNat := by
  have h : truncQ ((50 / 22050 : ℚ) * sampleRate) = 50 := by
    norm_num [truncQ, sampleRate]
  constructor
  · simp only [pulse_wave, fade_tone, h]
    norm_num
  · omega

/-- Claim C2: the claim states that `set_route(r)` with a new route while the
terminal theme `last` is selected stops the three channels and restarts the
theme's LoopSet.  In the code the inner `load_level("last")` call always hits
the `level_name == self.current_level` early return, so no channel operation
happens at all: the call only records the new route.  This theorem evaluates
the embedded controller and shows the full result — state changed only in
`route`, and an empty event trace (no stop, no play). -/
theorem set_route_last_noop (gen : Theme → Option LoopSet) (s : SM) (r : String)
    (hl : s.current_level = some Theme.last) (hr : r ≠ s.route) :
    set_route gen s r = ({ s with route := r }, []) := by
  unfold set_route load_level
  rw [if_neg hr, if_pos (by simp [hl])]
  cases hmx : s.mixer_available
  · simp [hmx]
  · simp [hmx, hl]

/-- Witness for C2 at a concrete input: switching the route from `pacifist`
to `genocide` while `last` is selected issues no channel operation. -/
theorem set_route_last_noop_witness :
    set_route genFail sLast "genocide" = ({ sLast with route := "genocide" }, []) :=
  set_route_last_noop genFail sLast "genocide" rfl (by decide)

/-- Claim C4: for every frame input, the computed target volume equals
`0.3 + 0.4 * min(1, player_speed / 5)`, multiplied by `0.5` when
`enemy_near` is true (confirmed). -/
theorem update_target_volume (s : SM) (sp : ℚ) (en : Bool)
    (hm : s.mixer_available = true) (_hsp : 0 ≤ sp) :
    (update s sp en).1.target_volume
      = (3 / 10 + 4 / 10 * min 1 (sp / 5)) * (if en then 5 / 10 else 1) := by
  unfold update
  rw [hm]
  cases en
  · simp
  · simp

/-- Witness for C4 at the three concrete inputs named by the claim:
speed 5 without enemy gives 0.7, with enemy 0.35, and speed 0 gives 0.3. -/
theorem update_target_volume_witness :
    (update initSM 5 false).1.target_volume = 7 / 10
    ∧ (update initSM 5 true).1.target_volume = 7 / 20
    ∧ (update initSM 0 false).1.target_volume = 3 / 10 := by
  refine ⟨?_, ?_, ?_⟩
  · rw [update_target_volume initSM 5 false rfl (by norm_num)]
    norm_num
  · rw [update_target_volume initSM 5 true rfl (by norm_num)]
    norm_num
  · rw [update_target_volume initSM 0 false rfl (by norm_num)]
    norm_num

/-- Claim C5: iterating the per-frame smoothing step
`current += (target - current) * 0.1` for `N` frames from `current = 0` with
the target held at `V` yields exactly `V * (1 - 0.9 ^ N)` (confirmed, as an
exact identity of the recurrence over the rationals). -/
theorem smooth_convergence (V : ℚ) (N : ℕ) :
    (smoothStep V)^[N] 0 = V * (1 - (9 / 10) ^ N) := by
  induction N with
  | zero => simp
  | succ n ih =>
    rw [Function.iterate_succ_apply', ih]
    unfold smoothStep
    rw [pow_succ]
    ring

/-- Claim C7: selecting the same theme again immediately after any
`load_level` call is a no-op — the state is unchanged and no channel
operation is issued, in every branch (confirmed). -/
theorem load_level_idem (gen : Theme → Option LoopSet) (s : SM) (X : Theme) :
    load_level gen ((load_level gen s X).1) X = ((load_level gen s X).1, []) := by
  unfold load_level
  cases hmx : s.mixer_available
  · simp [hmx]
  · by_cases hl : s.current_level = some X
    · simp [hmx, hl]
    · cases hc : List.lookup X s.proc_sounds
      · cases hg : gen X
        · simp [hmx, hl, hc, hg]
        · simp [hmx, hl, hc, hg]
      · simp [hmx, hl, hc]

/-- Claim C8: once the engine is disabled, `load_level`, `set_route` and
`update` never re-enable it and perform no audio operation (confirmed;
`set_route` may still record the new route tag, which is not an audio
operation). -/
theorem disabled_forever (gen : Theme → Option LoopSet) (s : SM) (X : Theme) (r : String)
    (sp : ℚ) (en : Bool) (hm : s.mixer_available = false) :
    load_level gen s X = (s, [])
    ∧ (set_route gen s r).1.mixer_available = false
    ∧ (set_route gen s r).2 = []
    ∧ update s sp en = (s, []) := by
  refine ⟨?_, ?_, ?_, ?_⟩
  · simp [load_level, hm]
  · unfold set_route load_level
    by_cases h1 : r = s.route
    · simp [h1, hm]
    · rw [if_neg h1]
      split <;> simp [hm]
  · unfold set_route load_level
    by_cases h1 : r = s.route
    · simp [h1]
    · rw [if_neg h1]
      split <;> simp [hm]
  · simp [update, hm]

/-- Witness for C8 at a concrete disabled state. -/
theorem disabled_forever_witness :
    load_level genFail sDead Theme.core = (sDead, [])
    ∧ (set_route genFail sDead "genocide").1.mixer_available = false
    ∧ (set_route genFail sDead "genocide").2 = []
    ∧ update sDead 3 true = (sDead, []) :=
  disabled_forever genFail sDead Theme.core "genocide" 3 true rfl

/-- Claim C9: after a successful switch to a different theme, the three
channel target volumes are reset to 0.5 and the three current volumes to 0,
so the new theme fades in from silence (confirmed). -/
theorem load_level_volume_reset (gen : Theme → Option LoopSet) (s : SM) (X : Theme)
    (hm : s.mixer_available = true) (hl : ¬ s.current_level = some X)
    (hok : (load_level gen s X).1.mixer_available = true) :
    (load_level gen s X).1.proc_target_volumes = (5 / 10, 5 / 10, 5 / 10)
    ∧ (load_level gen s X).1.proc_current_volumes = (0, 0, 0) := by
  unfold load_level at hok ⊢
  cases hc : List.lookup X s.proc_sounds
  · cases hg : gen X
    · simp [hm, if_neg hl, hc, hg] at hok
    · simp [hm, if_neg hl, hc, hg]
  · simp [hm, if_neg hl, hc]

/-- Witness for C9 at a concrete input: a cached theme is selected
successfully, and both volume triples are reset. -/
theorem load_level_volume_reset_witness :
    (load_level genFail sCached Theme.ruins).1.proc_target_volumes = (5 / 10, 5 / 10, 5 / 10)
    ∧ (load_level genFail sCached Theme.ruins).1.proc_current_volumes = (0, 0, 0) :=
  load_level_volume_reset genFail sCached Theme.ruins rfl (by decide) (by decide)

/-- Claim C10: `load_level` records the requested theme as the current theme
and stops the three channels before attempting generation, so on a
generation failure the stored current theme is the failed theme, the
channels have already been stopped, and the engine is disabled
(confirmed). -/
theorem load_level_records_theme_first (gen : Theme → Option LoopSet) (s : SM) (X : Theme)
    (hm : s.mixer_available = true) (hl : ¬ s.current_level = some X)
    (hc : List.lookup X s.proc_sounds = none) (hg : gen X = none) :
    load_level gen s X
      = ({ s with current_level := some X, mixer_available := false },
         [Event.stop 0, Event.stop 1, Event.stop 2]) := by
  simp [load_level, hm, if_neg hl, hc, hg]

/-- Witness for C10 at a concrete input: a fresh state whose generator
fails. -/
theorem load_level_records_theme_first_witness :
    load_level genFail initSM Theme.ruins
      = ({ initSM with current_level := some Theme.ruins, mixer_available := false },
         [Event.stop 0, Event.stop 1, Event.stop 2]) :=
  load_level_records_theme_first genFail initSM Theme.ruins rfl (by decide) rfl rfl

end Undertale
